import Mathlib

/-!
# Verification of the tnova_connector conversion core

Shallow embedding of the conversion components of the `tnova_connector`
repository (`src/conversion/converter.py`, `src/conversion/conversion.py`)
together with proofs about the embedded definitions.

Python strings are modelled by Lean `String`, Python `int` by `Int`,
Python `float` by `ℚ` (only finite decimal literals occur in the code
paths under study), Python dicts that are used as registries by
insertion-ordered association lists, and fallible Python code (paths that
raise) by `Option`/`Except`.
-/

namespace Tnova

/-! ## Python string/number primitives -/

/-- Digits of a decimal run, folded to a natural number (`int("...")` on an
all-digit string). -/
def digitsToNat (l : List Char) : Nat :=
  l.foldl (fun a c => 10 * a + (c.toNat - 48)) 0

/-- Value of a non-empty all-digit character run, `none` otherwise. -/
def digitsVal? (l : List Char) : Option Nat :=
  if l ≠ [] ∧ l.all Char.isDigit then some (digitsToNat l) else none

/-- Strip ASCII whitespace from both ends, as Python `str.strip()` /
the whitespace tolerance of `int()` and `float()`. -/
def stripWS (l : List Char) : List Char :=
  ((l.dropWhile Char.isWhitespace).reverse.dropWhile Char.isWhitespace).reverse

/-- Python `int(s)` on a string: optional sign, then a non-empty digit run,
surrounded by optional whitespace; every other string raises `ValueError`,
modelled as `none`. -/
def pyIntCore : List Char → Option Int
  | [] => none
  | c :: rest =>
    if c = '-' then (digitsVal? rest).map (fun n : Nat => -(n : Int))
    else if c = '+' then (digitsVal? rest).map (fun n : Nat => (n : Int))
    else (digitsVal? (c :: rest)).map (fun n : Nat => (n : Int))

def pyInt (s : String) : Option Int :=
  pyIntCore (stripWS s.data)

/-- Python `float(s)` restricted to plain decimal literals
(`[sign] digits [. digits]`), which covers every string the conversion
code feeds to `float`; anything else is `ValueError`, modelled as `none`. -/
def pyFloatDigits : List Char → Option ℚ
  | l =>
    match l.splitOn '.' with
    | [d] => (digitsVal? d).map (fun n : Nat => (n : ℚ))
    | [d1, d2] =>
      if d1 = [] ∧ d2 = [] then none
      else if (d1.all Char.isDigit ∧ d2.all Char.isDigit) then
        some ((digitsToNat (d1 ++ d2) : ℚ) / ((10 : ℚ) ^ d2.length))
      else none
    | _ => none

def pyFloatCore : List Char → Option ℚ
  | [] => none
  | c :: rest =>
    if c = '-' then (pyFloatDigits rest).map (fun q => -q)
    else if c = '+' then pyFloatDigits rest
    else pyFloatDigits (c :: rest)

def pyFloat (s : String) : Option ℚ :=
  pyFloatCore (stripWS s.data)

/-- `s.split(c)` on character lists: split at every occurrence, keeping
empty fragments (Python semantics for a one-character separator). -/
def splitChar (c : Char) : List Char → List (List Char)
  | [] => [[]]
  | x :: xs =>
    let r := splitChar c xs
    if x = c then [] :: r
    else
      match r with
      | y :: ys => (x :: y) :: ys
      | [] => [[x]]

/-- Python `s.split(c)` for a single-character separator. -/
def pySplit (c : Char) (s : String) : List String :=
  (splitChar c s.data).map String.mk

/-- Python `s.split(c, 1)`: the part before the first occurrence and,
when the separator occurs, the joined remainder. -/
def pySplitOnce (c : Char) (s : String) : String × Option String :=
  match pySplit c s with
  | [] => (s, none)
  | [x] => (x, none)
  | x :: rest => (x, some (String.intercalate (String.mk [c]) rest))

/-- Characters before the first occurrence of `c` (the whole list when `c`
is absent): Python `s.split(c, 1)[0]`. -/
def takeUntil (c : Char) : List Char → List Char
  | [] => []
  | x :: xs => if x = c then [] else x :: takeUntil c xs

/-- Characters before the last occurrence of `c`, `none` when `c` is
absent. -/
def beforeLast (c : Char) : List Char → Option (List Char)
  | [] => none
  | x :: xs =>
    match beforeLast c xs with
    | some ys => some (x :: ys)
    | none => if x = c then some [] else none

/-- Python `s.rsplit(c, 1)[0]`. -/
def pyRsplitHead (c : Char) (s : String) : String :=
  match beforeLast c s.data with
  | some l => String.mk l
  | none => s

/-- Python `s.split(c, 1)[0]`. -/
def pySplitHead (c : Char) (s : String) : String :=
  String.mk (takeUntil c s.data)

/-- Contiguous-sublist test on character lists. -/
def containsSubList (sub : List Char) : List Char → Bool
  | [] => sub.isEmpty
  | x :: xs => sub.isPrefixOf (x :: xs) || containsSubList sub xs

/-- Python `sub in s` (substring containment). -/
def containsSub (sub s : String) : Bool :=
  containsSubList sub.data s.data

/-- Python `s.startswith(pre)`. -/
def pyStartsWith (pre s : String) : Bool :=
  pre.data.isPrefixOf s.data

/-! ## Tag Allocator (`TNOVAConverter.__process_tag`, src/conversion/converter.py)

The VLAN registry `self.vlan_register` is a dict from the composite key
`"%s-%s" % (abstract_id, ns_id)` to the allocated VLAN id, modelled as an
insertion-ordered association list with fresh keys prepended. -/

abbrev VlanRegister := List (String × Int)

def registerValues (reg : VlanRegister) : List Int := reg.map Prod.snd

/-- The composite key `"%s-%s" % (abstract_id, ns_id)`. -/
def tagId (abstract_id ns_id : String) : String :=
  abstract_id ++ "-" ++ ns_id

/-- `re.search(r'\d+$', s)`: value of the trailing digit run, if any. -/
def trailingNum (s : String) : Option Nat :=
  let ds := (s.data.reverse.takeWhile Char.isDigit).reverse
  if ds = [] then none else some (digitsToNat ds)

/-- First candidate not yet used as a value (`vlan not in itervalues()`). -/
def findFreeVlan (vals : List Int) : List Int → Option Int
  | [] => none
  | c :: cs => if c ∈ vals then findFreeVlan vals cs else some c

/-- Candidates of the final fallback loop `for vlan in xrange(1, 4094)`:
the integers 1..4093. -/
def vlanScanRange : List Int :=
  (List.range' 1 4093).map (fun n : Nat => (n : Int))

/-- The `try: vlan_id = int(tag_id) ...` branch: a parseable composite id
whose value is a free valid VLAN (`0 < vlan_id < 4095` and not among the
registered values); `ValueError` or a failed check falls through. -/
def directVlan (reg : VlanRegister) (tag_id : String) : Option Int :=
  match pyInt tag_id with
  | some vlan_id =>
    if 0 < vlan_id ∧ vlan_id < 4095 ∧ vlan_id ∉ registerValues reg then
      some vlan_id
    else none
  | none => none

/-- The `re.search(r'\d+$', tag_id)` branch: a free valid trailing number;
otherwise falls through. -/
def trailerVlan (reg : VlanRegister) (tag_id : String) : Option Int :=
  match trailingNum tag_id with
  | some t =>
    if 0 < (t : Int) ∧ (t : Int) < 4095 ∧ (t : Int) ∉ registerValues reg then
      some (t : Int)
    else none
  | none => none

/-- The final fallback loop `for vlan in xrange(1, 4094)`. -/
def scanVlan (reg : VlanRegister) : Option Int :=
  findFreeVlan (registerValues reg) vlanScanRange

/-- VLAN id chosen for a not-yet-registered composite key: the three
strategies of `__process_tag` in their fall-through order. -/
def chooseVlan (reg : VlanRegister) (tag_id : String) : Option Int :=
  match directVlan reg tag_id with
  | some v => some v
  | none =>
    match trailerVlan reg tag_id with
    | some v => some v
    | none => scanVlan reg

/-- `TNOVAConverter.__process_tag(abstract_id, ns_id)`
(src/conversion/converter.py, lines 256-316): returns the produced VLAN id
(`none` models the Python `None` return) and the updated registry. -/
def process_tag (reg : VlanRegister) (abstract_id ns_id : String) :
    Option Int × VlanRegister :=
  match List.lookup (tagId abstract_id ns_id) reg with
  | some v => (some v, reg)
  | none =>
    match chooseVlan reg (tagId abstract_id ns_id) with
    | some v => (some v, (tagId abstract_id ns_id, v) :: reg)
    | none => (none, reg)

/-- Registers reachable from the empty dict by `__process_tag` calls of one
converter instance. -/
inductive ReachableRegister : VlanRegister → Prop
  | nil : ReachableRegister []
  | step (reg : VlanRegister) (a n : String) :
      ReachableRegister reg → ReachableRegister (process_tag reg a n).2

/-! ### Lemmas about the primitives -/

theorem str_data_append (a b : String) : (a ++ b).data = a.data ++ b.data :=
  rfl

theorem tagId_data (a n : String) :
    (tagId a n).data = a.data ++ '-' :: n.data := by
  simp [tagId, str_data_append]

theorem lookup_none_of_forall {reg : VlanRegister} {k : String}
    (h : ∀ p ∈ reg, p.1 ≠ k) : List.lookup k reg = none := by
  induction reg with
  | nil => rfl
  | cons q reg ih =>
    have hq : q.1 ≠ k := h q (List.mem_cons_self _ _)
    have hb : (k == q.1) = false :=
      beq_eq_false_iff_ne.mpr (fun he => hq he.symm)
    simp only [List.lookup, hb]
    exact ih (fun p hp => h p (List.mem_cons_of_mem _ hp))

theorem forall_of_lookup_none {reg : VlanRegister} {k : String}
    (h : List.lookup k reg = none) : ∀ p ∈ reg, p.1 ≠ k := by
  induction reg with
  | nil => simp
  | cons q reg ih =>
    rcases hb : (k == q.1) with _ | _
    · simp only [List.lookup, hb] at h
      intro p hp
      rcases List.mem_cons.mp hp with rfl | hp'
      · exact fun he => by simp [he] at hb
      · exact ih h p hp'
    · simp only [List.lookup, hb] at h
      cases h

theorem mem_stripWS_of_not_ws {x : Char} {l : List Char}
    (hx : x ∈ l) (hws : ¬ x.isWhitespace) : x ∈ stripWS l := by
  have h1 : x ∈ l.dropWhile Char.isWhitespace := by
    rcases (List.mem_append.mp
      (by rw [List.takeWhile_append_dropWhile] at *; exact hx :
        x ∈ l.takeWhile Char.isWhitespace ++ l.dropWhile Char.isWhitespace))
      with h | h
    · exact absurd (List.mem_takeWhile_imp h) hws
    · exact h
  set m := l.dropWhile Char.isWhitespace with hm
  have h2 : x ∈ m.reverse := List.mem_reverse.mpr h1
  have h3 : x ∈ m.reverse.dropWhile Char.isWhitespace := by
    rcases (List.mem_append.mp
      (by rw [List.takeWhile_append_dropWhile] at *; exact h2 :
        x ∈ m.reverse.takeWhile Char.isWhitespace ++
          m.reverse.dropWhile Char.isWhitespace)) with h | h
    · exact absurd (List.mem_takeWhile_imp h) hws
    · exact h
  exact List.mem_reverse.mpr h3

theorem digitsVal?_eq_some {l : List Char} {n : Nat}
    (h : digitsVal? l = some n) : l ≠ [] ∧ l.all Char.isDigit := by
  by_cases hc : l ≠ [] ∧ l.all Char.isDigit
  · exact hc
  · rw [digitsVal?, if_neg hc] at h
    cases h

/-- A `__process_tag` composite key always contains `'-'`, hence
`int(tag_id)` can only succeed with a negative value: the direct branch of
the allocator is dead code for positive VLANs. -/
theorem pyInt_tagId_nonpos {a n : String} {v : Int}
    (h : pyInt (tagId a n) = some v) : v ≤ 0 := by
  have hdashmem : '-' ∈ (tagId a n).data := by
    rw [tagId_data]; simp
  have hdash : '-' ∈ stripWS (tagId a n).data :=
    mem_stripWS_of_not_ws hdashmem (by decide)
  unfold pyInt at h
  rcases hs : stripWS (tagId a n).data with _ | ⟨c, rest⟩
  · rw [hs] at h; simp [pyIntCore] at h
  · rw [hs] at h hdash
    simp only [pyIntCore] at h
    by_cases hc : c = '-'
    · rw [if_pos hc] at h
      rcases Option.map_eq_some'.mp h with ⟨m, _, rfl⟩
      simp
    · rw [if_neg hc] at h
      by_cases hp : c = '+'
      · rw [if_pos hp] at h
        rcases Option.map_eq_some'.mp h with ⟨m, hm, rfl⟩
        have hall := (digitsVal?_eq_some hm).2
        rcases List.mem_cons.mp hdash with hch | hmem
        · exact absurd hch.symm (by subst hp; decide)
        · have := List.all_eq_true.mp hall _ hmem
          simp [Char.isDigit] at this
      · rw [if_neg hp] at h
        rcases Option.map_eq_some'.mp h with ⟨m, hm, rfl⟩
        have hall := (digitsVal?_eq_some hm).2
        have := List.all_eq_true.mp hall _ hdash
        simp [Char.isDigit] at this

/-- The direct (`int(tag_id)`) branch never allocates. -/
theorem directVlan_tagId (reg : VlanRegister) (a n : String) :
    directVlan reg (tagId a n) = none := by
  unfold directVlan
  split
  · rename_i v h
    have hv := pyInt_tagId_nonpos h
    have hne : ¬ (0 < v ∧ v < 4095 ∧ v ∉ registerValues reg) := by
      rintro ⟨h1, -, -⟩; omega
    exact if_neg hne
  · rfl

theorem findFreeVlan_cons (vals : List Int) (c : Int) (cs : List Int) :
    findFreeVlan vals (c :: cs) =
      if c ∈ vals then findFreeVlan vals cs else some c := rfl

theorem findFreeVlan_eq_some {vals cands : List Int} {v : Int}
    (h : findFreeVlan vals cands = some v) : v ∈ cands ∧ v ∉ vals := by
  induction cands with
  | nil => simp [findFreeVlan] at h
  | cons c cs ih =>
    rw [findFreeVlan_cons] at h
    by_cases hc : c ∈ vals
    · rw [if_pos hc] at h
      rcases ih h with ⟨h1, h2⟩
      exact ⟨List.mem_cons_of_mem _ h1, h2⟩
    · rw [if_neg hc] at h
      cases h
      exact ⟨List.mem_cons_self _ _, hc⟩

theorem findFreeVlan_append_of_mem {vals cs₁ cs₂ : List Int}
    (h : ∀ c ∈ cs₁, c ∈ vals) :
    findFreeVlan vals (cs₁ ++ cs₂) = findFreeVlan vals cs₂ := by
  induction cs₁ with
  | nil => simp
  | cons c cs ih =>
    have hc : c ∈ vals := h c (List.mem_cons_self _ _)
    rw [List.cons_append, findFreeVlan_cons, if_pos hc]
    exact ih (fun x hx => h x (List.mem_cons_of_mem _ hx))

theorem findFreeVlan_eq_none {vals cands : List Int}
    (h : ∀ c ∈ cands, c ∈ vals) : findFreeVlan vals cands = none := by
  induction cands with
  | nil => rfl
  | cons c cs ih =>
    rw [findFreeVlan_cons, if_pos (h c (List.mem_cons_self _ _))]
    exact ih (fun x hx => h x (List.mem_cons_of_mem _ hx))

theorem mem_vlanScanRange {v : Int} :
    v ∈ vlanScanRange ↔ 1 ≤ v ∧ v ≤ 4093 := by
  simp only [vlanScanRange, List.mem_map, List.mem_range'_1]
  constructor
  · rintro ⟨m, ⟨hm1, hm2⟩, rfl⟩
    omega
  · rintro ⟨h1, h2⟩
    refine ⟨v.toNat, ⟨by omega, by omega⟩, by omega⟩

theorem directVlan_spec {reg : VlanRegister} {t : String} {v : Int}
    (h : directVlan reg t = some v) :
    1 ≤ v ∧ v ≤ 4094 ∧ v ∉ registerValues reg := by
  unfold directVlan at h
  split at h
  · split at h
    · rename_i hc
      cases h
      exact ⟨by omega, by omega, hc.2.2⟩
    · cases h
  · cases h

theorem trailerVlan_spec {reg : VlanRegister} {t : String} {v : Int}
    (h : trailerVlan reg t = some v) :
    1 ≤ v ∧ v ≤ 4094 ∧ v ∉ registerValues reg := by
  unfold trailerVlan at h
  split at h
  · split at h
    · rename_i hc
      cases h
      exact ⟨by omega, by omega, hc.2.2⟩
    · cases h
  · cases h

/-- Any VLAN id chosen for a fresh key is valid and not yet taken. -/
theorem chooseVlan_spec {reg : VlanRegister} {t : String} {v : Int}
    (h : chooseVlan reg t = some v) :
    1 ≤ v ∧ v ≤ 4094 ∧ v ∉ registerValues reg := by
  unfold chooseVlan at h
  split at h
  · rename_i w hd
    cases h
    exact directVlan_spec hd
  · split at h
    · rename_i w ht
      cases h
      exact trailerVlan_spec ht
    · unfold scanVlan at h
      rcases findFreeVlan_eq_some h with ⟨h1, h2⟩
      rcases mem_vlanScanRange.mp h1 with ⟨h3, h4⟩
      exact ⟨h3, by omega, h2⟩

/-! ### The registry invariant (claim C1) -/

def RegInvariant (reg : VlanRegister) : Prop :=
  (∀ p ∈ reg, 1 ≤ p.2 ∧ p.2 ≤ 4094) ∧
  (reg.map Prod.fst).Nodup ∧
  reg.Pairwise (fun p q => p.2 ≠ q.2)

theorem process_tag_invariant {reg : VlanRegister} (a n : String)
    (h : RegInvariant reg) : RegInvariant (process_tag reg a n).2 := by
  obtain ⟨hbound, hkeys, hvals⟩ := h
  unfold process_tag
  split
  · exact ⟨hbound, hkeys, hvals⟩
  · rename_i hl
    split
    · rename_i v hc
      rcases chooseVlan_spec hc with ⟨h1, h2, h3⟩
      refine ⟨?_, ?_, ?_⟩
      · intro p hp
        rcases List.mem_cons.mp hp with hpe | hp'
        · rw [hpe]
          exact ⟨h1, h2⟩
        · exact hbound p hp'
      · refine List.Nodup.cons ?_ hkeys
        intro hmem
        rcases List.mem_map.mp hmem with ⟨p, hp, hpk⟩
        exact (forall_of_lookup_none hl p hp) hpk
      · refine List.Pairwise.cons ?_ hvals
        intro q hq hvq
        apply h3
        have hv : v = q.2 := hvq
        rw [hv]
        exact List.mem_map_of_mem Prod.snd hq
    · exact ⟨hbound, hkeys, hvals⟩

theorem reachable_invariant {reg : VlanRegister}
    (h : ReachableRegister reg) : RegInvariant reg := by
  induction h with
  | nil => refine ⟨by simp, by simp, by simp⟩
  | step reg a n _ ih => exact process_tag_invariant a n ih

/-- One `__process_tag` call never removes an entry. -/
theorem process_tag_mono {reg : VlanRegister} (a n : String) {p}
    (hp : p ∈ reg) : p ∈ (process_tag reg a n).2 := by
  unfold process_tag
  split
  · exact hp
  · split
    · exact List.mem_cons_of_mem _ hp
    · exact hp

/-- One `__process_tag` call never overrides a registered binding. -/
theorem process_tag_lookup_mono {reg : VlanRegister} (a n : String)
    {k : String} {v : Int} (hk : List.lookup k reg = some v) :
    List.lookup k (process_tag reg a n).2 = some v := by
  unfold process_tag
  split
  · exact hk
  · rename_i hl
    split
    · have hne : (k == tagId a n) = false := by
        rcases hb : (k == tagId a n) with _ | _
        · rfl
        · rw [beq_iff_eq] at hb
          rw [hb, hl] at hk
          cases hk
      simp only [List.lookup, hne]
      exact hk
    · exact hk

/-- Claim C1: within one converter scope, registered VLAN values are
pairwise distinct for distinct composite keys and lie in `[1, 4094]`; a
registered binding survives any further call (never freed), and calling
the allocator again with the same `(abstract_id, scope_id)` returns the
cached value. -/
theorem tag_allocator_invariant (reg : VlanRegister)
    (h : ReachableRegister reg) :
    (∀ p ∈ reg, 1 ≤ p.2 ∧ p.2 ≤ 4094) ∧
    (∀ p ∈ reg, ∀ q ∈ reg, p.1 ≠ q.1 → p.2 ≠ q.2) ∧
    (∀ a n p, p ∈ reg → p ∈ (process_tag reg a n).2) ∧
    (∀ (a n k : String) (v : Int), List.lookup k reg = some v →
      List.lookup k (process_tag reg a n).2 = some v) ∧
    (∀ (a n : String) (v : Int), List.lookup (tagId a n) reg = some v →
      (process_tag reg a n).1 = some v) := by
  obtain ⟨hbound, hkeys, hvals⟩ := reachable_invariant h
  refine ⟨hbound, ?_, ?_, ?_, ?_⟩
  · intro p hp q hq hne
    exact hvals.forall (fun x y hxy => hxy.symm) hp hq
      (fun hpq => hne (congrArg Prod.fst hpq))
  · intro a n p hp
    exact process_tag_mono a n hp
  · intro a n k v hk
    exact process_tag_lookup_mono a n hk
  · intro a n v hk
    unfold process_tag
    rw [hk]

/-- Witness for C1 at a concrete two-call sequence. -/
theorem tag_allocator_invariant_witness :
    (∀ p ∈ (process_tag (process_tag [] "hop1" "svc").2 "hop2" "svc").2,
      1 ≤ p.2 ∧ p.2 ≤ 4094) ∧
    (∀ p ∈ (process_tag (process_tag [] "hop1" "svc").2 "hop2" "svc").2,
      ∀ q ∈ (process_tag (process_tag [] "hop1" "svc").2 "hop2" "svc").2,
      p.1 ≠ q.1 → p.2 ≠ q.2) ∧
    (∀ a n p, p ∈ (process_tag (process_tag [] "hop1" "svc").2 "hop2" "svc").2 →
      p ∈ (process_tag
        (process_tag (process_tag [] "hop1" "svc").2 "hop2" "svc").2 a n).2) ∧
    (∀ (a n k : String) (v : Int),
      List.lookup k (process_tag (process_tag [] "hop1" "svc").2 "hop2" "svc").2
        = some v →
      List.lookup k (process_tag
        (process_tag (process_tag [] "hop1" "svc").2 "hop2" "svc").2 a n).2
        = some v) ∧
    (∀ (a n : String) (v : Int),
      List.lookup (tagId a n)
        (process_tag (process_tag [] "hop1" "svc").2 "hop2" "svc").2 = some v →
      (process_tag
        (process_tag (process_tag [] "hop1" "svc").2 "hop2" "svc").2 a n).1
        = some v) :=
  tag_allocator_invariant _
    (ReachableRegister.step _ "hop2" "svc"
      (ReachableRegister.step _ "hop1" "svc" ReachableRegister.nil))

/-! ### Claim C3: the `int(abstract_id)` branch (code bug)

The spec says: when `abstract_id` itself parses as a free VLAN integer,
that integer is allocated.  The code applies `int()` to the composite
`tag_id = "%s-%s" % (abstract_id, ns_id)` instead (which always contains
`'-'` and hence never parses as a positive integer), contradicting its own
comment `# Check if the raw_id is a valid number`.  On
`abstract_id = "42"`, `ns_id = "7"` with an empty registry the call
returns 7 (the trailing digits of `"42-7"`, i.e. the scope id), not 42. -/

theorem process_tag_divergence_C3 :
    pyInt "42" = some 42 ∧
    process_tag [] "42" "7" = (some 7, [("42-7", 7)]) ∧
    (process_tag [] "42" "7").1 ≠ some 42 := by
  refine ⟨by decide, by decide, by decide⟩

/-! ### Claim C2: exhaustion of the fallback scan (code bug)

The fallback loop `for vlan in xrange(1, 4094)` only tries 1..4093,
although the code itself treats 4094 as a valid VLAN id elsewhere
(`0 < x < 4095`, with the comment `0 and 4095 are reserved`).  Below, a
reachable register whose values are exactly 1..4093 is built by 4093
calls with fresh keys that have no usable number; a further call then
returns `None` although 4094 is still free. -/

def c2Scope : String := "svc"

def c2Key (i : Nat) : String := String.mk (List.replicate i 'a')

/-- Register after `n` allocator calls with the distinct, number-free
abstract ids `c2Key 0, …, c2Key (n-1)`. -/
def c2Iterate : Nat → VlanRegister
  | 0 => []
  | n + 1 => (process_tag (c2Iterate n) (c2Key n) c2Scope).2

theorem c2Iterate_reachable (n : Nat) : ReachableRegister (c2Iterate n) := by
  induction n with
  | zero => exact ReachableRegister.nil
  | succ n ih => exact ReachableRegister.step _ _ _ ih

/-- A composite key with scope `"svc"` has no trailing digit run. -/
theorem trailingNum_tag_svc (a : String) :
    trailingNum (tagId a c2Scope) = none := by
  unfold trailingNum
  have h : (tagId a c2Scope).data.reverse =
      'c' :: 'v' :: 's' :: '-' :: a.data.reverse := by
    rw [tagId_data]
    show (a.data ++ '-' :: ['s', 'v', 'c']).reverse = _
    rw [List.reverse_append]
    rfl
  rw [h]
  rfl

theorem tagId_c2Key_length (i : Nat) :
    (tagId (c2Key i) c2Scope).length = i + 4 := by
  show (tagId (c2Key i) c2Scope).data.length = i + 4
  rw [tagId_data]
  show (List.replicate i 'a' ++ '-' :: ['s', 'v', 'c']).length = i + 4
  rw [List.length_append, List.length_replicate]
  rfl

theorem process_tag_fresh {reg : VlanRegister} {a n : String} {v : Int}
    (hl : List.lookup (tagId a n) reg = none)
    (hc : chooseVlan reg (tagId a n) = some v) :
    process_tag reg a n = (some v, (tagId a n, v) :: reg) := by
  unfold process_tag
  rw [hl, hc]

theorem process_tag_exhausted {reg : VlanRegister} {a n : String}
    (hl : List.lookup (tagId a n) reg = none)
    (hc : chooseVlan reg (tagId a n) = none) :
    process_tag reg a n = (none, reg) := by
  unfold process_tag
  rw [hl, hc]

theorem chooseVlan_of_dead_branches {reg : VlanRegister} {t : String}
    (ht : trailerVlan reg t = none) (hd : directVlan reg t = none) :
    chooseVlan reg t = scanVlan reg := by
  unfold chooseVlan
  rw [hd, ht]

/-- Characterization of the register built by `c2Iterate`: after `n ≤ 4093`
steps the registered values are exactly 1..n and every key is one of the
`n` composite keys. -/
theorem c2Iterate_spec (n : Nat) (hn : n ≤ 4093) :
    (∀ v : Int, v ∈ registerValues (c2Iterate n) ↔ 1 ≤ v ∧ v ≤ (n : Int)) ∧
    (∀ p ∈ c2Iterate n, ∃ i < n, p.1 = tagId (c2Key i) c2Scope) := by
  induction n with
  | zero =>
    constructor
    · intro v
      simp only [c2Iterate, registerValues, List.map_nil, List.not_mem_nil]
      constructor
      · intro h; cases h
      · intro h; omega
    · intro p hp
      cases hp
  | succ n ih =>
    obtain ⟨hmem, hkey⟩ := ih (by omega)
    have hl : List.lookup (tagId (c2Key n) c2Scope) (c2Iterate n) = none := by
      apply lookup_none_of_forall
      intro p hp
      rcases hkey p hp with ⟨i, hi, hpe⟩
      rw [hpe]
      intro he
      have hlen := congrArg String.length he
      rw [tagId_c2Key_length, tagId_c2Key_length] at hlen
      omega
    have hscan : scanVlan (c2Iterate n) = some ((n : Int) + 1) := by
      have hall : ∀ c ∈ (List.range' 1 n).map (fun m : Nat => (m : Int)),
          c ∈ registerValues (c2Iterate n) := by
        intro c hc
        rcases List.mem_map.mp hc with ⟨m, hm, rfl⟩
        rcases List.mem_range'_1.mp hm with ⟨hm1, hm2⟩
        exact (hmem _).mpr ⟨by omega, by omega⟩
      have hnotmem : ((n : Int) + 1) ∉ registerValues (c2Iterate n) := by
        intro hmem'
        have := ((hmem _).mp hmem').2
        omega
      have hcast : (((n + 1 : Nat)) : Int) = (n : Int) + 1 := by push_cast; ring
      unfold scanVlan vlanScanRange
      have h1 := List.range'_append 1 n (4093 - n) 1
      rw [show 1 + 1 * n = n + 1 by omega, show 4093 - n + n = 4093 by omega]
        at h1
      rw [← h1, show 4093 - n = (4093 - n - 1) + 1 by omega, List.range'_succ]
      simp only [List.map_append, List.map_cons]
      rw [findFreeVlan_append_of_mem hall, findFreeVlan_cons, hcast,
        if_neg hnotmem]
    have hchoose : chooseVlan (c2Iterate n) (tagId (c2Key n) c2Scope)
        = some ((n : Int) + 1) := by
      rw [chooseVlan_of_dead_branches ?_ (directVlan_tagId _ _ _), hscan]
      unfold trailerVlan
      rw [trailingNum_tag_svc]
    have hstep : c2Iterate (n + 1) =
        (tagId (c2Key n) c2Scope, (n : Int) + 1) :: c2Iterate n := by
      show (process_tag (c2Iterate n) (c2Key n) c2Scope).2 = _
      rw [process_tag_fresh hl hchoose]
    constructor
    · intro v
      rw [hstep]
      simp only [registerValues, List.map_cons, List.mem_cons]
      constructor
      · rintro (rfl | hv)
        · constructor <;> omega
        · have := (hmem v).mp hv
          constructor <;> omega
      · rintro ⟨h1, h2⟩
        by_cases hv : v = (n : Int) + 1
        · exact Or.inl hv
        · exact Or.inr ((hmem v).mpr ⟨h1, by omega⟩)
    · intro p hp
      rw [hstep] at hp
      rcases List.mem_cons.mp hp with hpe | hp'
      · exact ⟨n, by omega, by rw [hpe]⟩
      · rcases hkey p hp' with ⟨i, hi, hpe⟩
        exact ⟨i, by omega, hpe⟩

/-- Claim C2 (code bug): after 4093 reachable allocations the values are
exactly 1..4093, so 4094 is still free, yet the allocator returns `None`
because its fallback loop `xrange(1, 4094)` never tries 4094. -/
theorem process_tag_scan_gap_C2 :
    ReachableRegister (c2Iterate 4093) ∧
    (∀ v : Int, v ∈ registerValues (c2Iterate 4093) ↔ 1 ≤ v ∧ v ≤ 4093) ∧
    (4094 : Int) ∉ registerValues (c2Iterate 4093) ∧
    (process_tag (c2Iterate 4093) "z" c2Scope).1 = none := by
  obtain ⟨hmem, hkey⟩ := c2Iterate_spec 4093 (le_refl _)
  have h4094 : (4094 : Int) ∉ registerValues (c2Iterate 4093) := by
    intro h
    have := (hmem _).mp h
    omega
  refine ⟨c2Iterate_reachable 4093, by exact_mod_cast hmem, h4094, ?_⟩
  have hl : List.lookup (tagId "z" c2Scope) (c2Iterate 4093) = none := by
    apply lookup_none_of_forall
    intro p hp
    rcases hkey p hp with ⟨i, hi, hpe⟩
    rw [hpe]
    intro he
    have hlen := congrArg String.length he
    rw [tagId_c2Key_length] at hlen
    have hi1 : i = 1 := by
      have h5 : (tagId "z" c2Scope).length = 5 := by decide
      rw [h5] at hlen
      omega
    rw [hi1] at he
    exact absurd he (by decide)
  have hchoose : chooseVlan (c2Iterate 4093) (tagId "z" c2Scope) = none := by
    rw [chooseVlan_of_dead_branches ?_ (directVlan_tagId _ _ _)]
    · unfold scanVlan
      apply findFreeVlan_eq_none
      intro c hc
      rcases mem_vlanScanRange.mp hc with ⟨h1, h2⟩
      exact (hmem c).mpr ⟨h1, h2⟩
    · unfold trailerVlan
      rw [trailingNum_tag_svc]
  rw [process_tag_exhausted hl hchoose]

/-! ## Namespace Manager (`NFFGConverter`, src/conversion/conversion.py)

`UNIQUE_ID_DELIMITER = '@'`.  The converter state consists of the domain
name and the two unique-id mode flags set in `__init__`. -/

structure NFFGConverterCfg where
  domain : Option String
  uniqueBbId : Bool
  uniqueNfId : Bool

/-- Python truthiness of `self.domain` (`None` and `""` are falsy). -/
def domainTruthy (c : NFFGConverterCfg) : Bool :=
  match c.domain with
  | none => false
  | some d => d ≠ ""

/-- `NFFGConverter._gen_unique_bb_id` (lines 143-156):
`"%s%s%s" % (id, '@', domain)` when `self.__unique_bb_id and self.domain`,
else the raw id. -/
def gen_unique_bb_id (c : NFFGConverterCfg) (id : String) : String :=
  if c.uniqueBbId ∧ domainTruthy c then id ++ "@" ++ (c.domain.getD "")
  else id

/-- `NFFGConverter.recreate_bb_id` (lines 168-180):
`str(id).rsplit('@', 1)[0]` when `self.__unique_bb_id`, else the raw id. -/
def recreate_bb_id (c : NFFGConverterCfg) (id : String) : String :=
  if c.uniqueBbId then pyRsplitHead '@' id else id

/-- `NFFGConverter._gen_unique_nf_id` (lines 158-166) with an explicitly
given owning infra id (`bb_id`): `"%s%s%s" % (id, '@', bb_id)` when
`self.__unique_nf_id`, else the raw id. -/
def gen_unique_nf_id (c : NFFGConverterCfg) (id bb_id : String) : String :=
  if c.uniqueNfId then id ++ "@" ++ bb_id else id

/-- `NFFGConverter.recreate_nf_id` (lines 182-194):
`str(id).split('@', 1)[0]` when `self.__unique_nf_id`, else the raw id. -/
def recreate_nf_id (c : NFFGConverterCfg) (id : String) : String :=
  if c.uniqueNfId then pySplitHead '@' id else id

/-! ### Lemmas for the `'@'`-splitting primitives -/

theorem beforeLast_cons (c x : Char) (xs : List Char) :
    beforeLast c (x :: xs) =
      match beforeLast c xs with
      | some ys => some (x :: ys)
      | none => if x = c then some [] else none := rfl

theorem beforeLast_eq_none_iff (c : Char) (l : List Char) :
    beforeLast c l = none ↔ c ∉ l := by
  induction l with
  | nil => simp [beforeLast]
  | cons x xs ih =>
    rw [beforeLast_cons]
    rcases h : beforeLast c xs with _ | ys
    · have hxs : c ∉ xs := ih.mp h
      by_cases hx : x = c
      · subst hx
        simp
      · rw [if_neg hx]
        constructor
        · intro _
          simp only [List.mem_cons]
          rintro (he | hm)
          · exact hx he.symm
          · exact hxs hm
        · intro _
          rfl
    · have hxs : c ∈ xs := by
        by_contra hne
        rw [ih.mpr hne] at h
        cases h
      constructor
      · intro habs; cases habs
      · intro hfor
        exact absurd (List.mem_cons_of_mem _ hxs) hfor

theorem beforeLast_append (c : Char) (s d : List Char) (hd : c ∉ d) :
    beforeLast c (s ++ c :: d) = some s := by
  induction s with
  | nil =>
    rw [List.nil_append, beforeLast_cons,
      (beforeLast_eq_none_iff c d).mpr hd]
    simp
  | cons x xs ih =>
    rw [List.cons_append, beforeLast_cons, ih]

theorem takeUntil_cons (c x : Char) (xs : List Char) :
    takeUntil c (x :: xs) = if x = c then [] else x :: takeUntil c xs := rfl

theorem takeUntil_append (c : Char) (s d : List Char) (hs : c ∉ s) :
    takeUntil c (s ++ c :: d) = s := by
  induction s with
  | nil => simp [takeUntil]
  | cons x xs ih =>
    have hx : x ≠ c := fun he => hs (he ▸ List.mem_cons_self _ _)
    rw [List.cons_append, takeUntil_cons, if_neg hx,
      ih (fun hm => hs (List.mem_cons_of_mem _ hm))]

theorem string_mk_data (s : String) : String.mk s.data = s := rfl

/-! ### Claim C5: BiSBiS id round trip -/

/-- Claim C5 counterexample: with unique-id mode on and the (truthy) domain
`"a@b"`, the round trip loses text, because `rsplit('@', 1)` cuts at the
last `'@'`, which here lies inside the domain. -/
theorem recreate_bb_id_not_inverse_C5 :
    recreate_bb_id ⟨some "a@b", true, false⟩
        (gen_unique_bb_id ⟨some "a@b", true, false⟩ "n") = "n@a" ∧
    "n@a" ≠ "n" := by
  refine ⟨by decide, by decide⟩

/-- Claim C5 (amended): the BiSBiS id round trip is the identity for every
node id whenever the configured domain is non-empty and does not contain
the delimiter `'@'`; with unique-id mode disabled both functions are the
identity. -/
theorem recreate_bb_id_round_trip_C5 (id d : String) (u : Bool)
    (hd : d ≠ "") (hdom : '@' ∉ d.data) :
    recreate_bb_id ⟨some d, true, u⟩
        (gen_unique_bb_id ⟨some d, true, u⟩ id) = id ∧
    (∀ dom : Option String,
      gen_unique_bb_id ⟨dom, false, u⟩ id = id ∧
      recreate_bb_id ⟨dom, false, u⟩ id = id) := by
  constructor
  · have htr : domainTruthy ⟨some d, true, u⟩ = true := by
      simp [domainTruthy, hd]
    rw [gen_unique_bb_id, if_pos ⟨rfl, htr⟩]
    rw [recreate_bb_id, if_pos rfl]
    unfold pyRsplitHead
    have hdata : (id ++ "@" ++ ((some d).getD "" : String)).data
        = id.data ++ '@' :: d.data := by
      rw [str_data_append, str_data_append, List.append_assoc]
      rfl
    rw [hdata, beforeLast_append '@' id.data d.data hdom]
  · intro dom
    constructor
    · rw [gen_unique_bb_id, if_neg (by simp)]
    · rw [recreate_bb_id, if_neg (by simp)]

/-- Witness for C5 at a concrete id and domain. -/
theorem recreate_bb_id_round_trip_C5_witness :
    recreate_bb_id ⟨some "dom1", true, false⟩
        (gen_unique_bb_id ⟨some "dom1", true, false⟩ "node7@x") = "node7@x" ∧
    (∀ dom : Option String,
      gen_unique_bb_id ⟨dom, false, false⟩ "node7@x" = "node7@x" ∧
      recreate_bb_id ⟨dom, false, false⟩ "node7@x" = "node7@x") :=
  recreate_bb_id_round_trip_C5 "node7@x" "dom1" false (by decide) (by decide)

/-! ### Claim C6: NF id round trip -/

/-- Claim C6 counterexample: `recreate_nf_id` does not strip the trailing
suffix appended by `_gen_unique_nf_id`; it uses `split('@', 1)` and
therefore cuts at the first `'@'`.  For an NF id that itself contains
`'@'` the round trip loses text. -/
theorem recreate_nf_id_not_inverse_C6 :
    recreate_nf_id ⟨none, false, true⟩
        (gen_unique_nf_id ⟨none, false, true⟩ "a@b" "infra1") = "a" ∧
    "a" ≠ "a@b" := by
  refine ⟨by decide, by decide⟩

/-- Claim C6 (amended): `recreate_nf_id` cuts at the first `'@'`; the NF id
round trip is the identity for every owning infra id exactly when the NF
id itself contains no `'@'`; with unique-NF-id mode disabled both
functions are the identity. -/
theorem recreate_nf_id_round_trip_C6 (id bb_id : String) (u : Bool)
    (d : Option String) (hid : '@' ∉ id.data) :
    recreate_nf_id ⟨d, u, true⟩
        (gen_unique_nf_id ⟨d, u, true⟩ id bb_id) = id ∧
    (gen_unique_nf_id ⟨d, u, false⟩ id bb_id = id ∧
     recreate_nf_id ⟨d, u, false⟩ id = id) := by
  constructor
  · rw [gen_unique_nf_id, if_pos rfl, recreate_nf_id, if_pos rfl]
    unfold pySplitHead
    have hdata : (id ++ "@" ++ bb_id).data = id.data ++ '@' :: bb_id.data := by
      rw [str_data_append, str_data_append, List.append_assoc]
      rfl
    rw [hdata, takeUntil_append '@' id.data bb_id.data hid]
  · constructor
    · rw [gen_unique_nf_id, if_neg (by simp)]
    · rw [recreate_nf_id, if_neg (by simp)]

/-- Witness for C6 at a concrete NF id and infra id (the infra id contains
`'@'`, as happens when unique BiSBiS ids are enabled). -/
theorem recreate_nf_id_round_trip_C6_witness :
    recreate_nf_id ⟨none, false, true⟩
        (gen_unique_nf_id ⟨none, false, true⟩ "nf3" "bb1@dom") = "nf3" ∧
    (gen_unique_nf_id ⟨none, false, false⟩ "nf3" "bb1@dom" = "nf3" ∧
     recreate_nf_id ⟨none, false, false⟩ "nf3" = "nf3") :=
  recreate_nf_id_round_trip_C6 "nf3" "bb1@dom" false none (by decide)

/-! ## Infra port filtering in Graph→Tree conversion
(`NFFGConverter._convert_nffg_infras`, lines 1669-1684)

An NFFG port id is an `int` or a `str`; `int(port.id)` succeeds on the
former and on numeric strings. -/

inductive NffgPortId
  | i (n : Int)
  | s (st : String)
deriving DecidableEq

/-- `str(port.id)`. -/
def portIdStr : NffgPortId → String
  | .i n => toString n
  | .s st => st

/-- `int(port.id)` (`ValueError` modelled as `none`). -/
def portIdInt? : NffgPortId → Option Int
  | .i n => some n
  | .s st => pyInt st

/-- The skip conditions of the port loop in `_convert_nffg_infras`:
`if not int(port.id) < 65536: continue` /
`except ValueError: if '|' in str(port.id): continue` /
`if str(port.id).startswith("EXTERNAL"): continue`. -/
def infra_port_skipped (p : NffgPortId) : Bool :=
  match portIdInt? p with
  | some n =>
    if ¬ (n < 65536) then true
    else pyStartsWith "EXTERNAL" (portIdStr p)
  | none =>
    if containsSub "|" (portIdStr p) then true
    else pyStartsWith "EXTERNAL" (portIdStr p)

/-- Port list of the emitted Virtualizer node: ports surviving the three
skip conditions (each survivor is emitted by `v_node.ports.add`). -/
def convert_nffg_infra_ports (ports : List NffgPortId) : List NffgPortId :=
  ports.filter (fun p => ! infra_port_skipped p)

/-- Claim C10: Graph→Tree conversion omits every infra port whose id
parses as an integer `≥ 65536`, every port whose non-numeric id contains
`'|'`, and every port whose id starts with `"EXTERNAL"`. -/
theorem infra_port_omitted_C10 (ports : List NffgPortId) (p : NffgPortId)
    (h : (∃ n : Int, portIdInt? p = some n ∧ 65536 ≤ n) ∨
         (portIdInt? p = none ∧ containsSub "|" (portIdStr p) = true) ∨
         pyStartsWith "EXTERNAL" (portIdStr p) = true) :
    p ∉ convert_nffg_infra_ports ports := by
  intro hmem
  have hf := List.of_mem_filter hmem
  have hskip : infra_port_skipped p = true := by
    rcases h with ⟨n, hn, hge⟩ | ⟨hnone, hbar⟩ | hext
    · simp only [infra_port_skipped, hn]
      rw [if_pos (show ¬ n < 65536 by omega)]
    · simp only [infra_port_skipped, hnone]
      rw [if_pos hbar]
    · simp only [infra_port_skipped]
      rcases hpi : portIdInt? p with _ | n
      · simp only [hpi]
        by_cases hbar : containsSub "|" (portIdStr p) = true
        · rw [if_pos hbar]
        · rw [if_neg hbar]
          exact hext
      · simp only [hpi]
        by_cases hlt : ¬ (n < 65536)
        · rw [if_pos hlt]
        · rw [if_neg hlt]
          exact hext
  rw [hskip] at hf
  cases hf

/-- Witness for C10: a dynamic port id `70000`, a composite id
`"sap1|comp|1"` and an `"EXTERNAL:1"` id are all omitted from a port list
that also contains genuine ports. -/
theorem infra_port_omitted_C10_witness :
    NffgPortId.i 70000 ∉ convert_nffg_infra_ports
        [NffgPortId.i 70000, NffgPortId.s "sap1|comp|1",
         NffgPortId.s "EXTERNAL:1", NffgPortId.i 3] ∧
    NffgPortId.s "sap1|comp|1" ∉ convert_nffg_infra_ports
        [NffgPortId.i 70000, NffgPortId.s "sap1|comp|1",
         NffgPortId.s "EXTERNAL:1", NffgPortId.i 3] ∧
    NffgPortId.s "EXTERNAL:1" ∉ convert_nffg_infra_ports
        [NffgPortId.i 70000, NffgPortId.s "sap1|comp|1",
         NffgPortId.s "EXTERNAL:1", NffgPortId.i 3] :=
  ⟨infra_port_omitted_C10 _ _ (Or.inl ⟨70000, by decide, by decide⟩),
   infra_port_omitted_C10 _ _ (Or.inr (Or.inl ⟨by decide, by decide⟩)),
   infra_port_omitted_C10 _ _ (Or.inr (Or.inr (by decide)))⟩

/-! ## Flow Codec (`NFFGConverter`, src/conversion/conversion.py)

`GENERAL_OPERATIONS = (in_port, output, TAG, UNTAG, flowclass)`,
`OP_DELIMITER = ';'`, `KV_DELIMITER = '='`, `LABEL_DELIMITER = '|'`. -/

def GENERAL_OPERATIONS : List String :=
  ["in_port", "output", "TAG", "UNTAG", "flowclass"]

/-- Python `s.upper()` (ASCII). -/
def pyUpper (s : String) : String :=
  String.mk (s.data.map Char.toUpper)

/-- Python `format(v, '#06x')`: `0x`-prefixed lowercase hex, zero-padded
after the sign and prefix to a total width of 6. -/
def pyFormatHash06x (v : Int) : String :=
  let mag := Nat.toDigits 16 v.natAbs
  let pre := if v < 0 then "-0x" else "0x"
  pre ++ String.mk (List.replicate (6 - (pre.length + mag.length)) '0' ++ mag)

/-- Python `v.split('|')[-1]` (a split result is never empty). -/
def lastLabel (v : String) : String :=
  (pySplit '|' v).getLastD ""

/-- `NFFGConverter.field_splitter` result dict: the keys the function can
set (`in_port` keeps the raw string when `int()` fails). -/
structure FieldDict where
  in_port : Option (Int ⊕ String) := none
  vlan_id : Option String := none
  vlan_push : Option String := none
  vlan_pop : Bool := false
  out : Option String := none
  flowclass : Option String := none
deriving DecidableEq

/-- One iteration of the `for part in parts` loop of
`NFFGConverter.field_splitter` (lines 112-140); a raised `RuntimeError` is
modelled as `Except.error`. -/
def field_splitter_step (ty : String) (d : FieldDict) (part : String) :
    Except String FieldDict :=
  let kv := pySplitOnce '=' part
  match kv.2 with
  | none =>
    if kv.1 = "UNTAG" ∧ pyUpper ty = "ACTION" then
      Except.ok { d with vlan_pop := true }
    else Except.error ("Not a key-value pair: " ++ part)
  | some v =>
    if kv.1 = "in_port" then
      Except.ok { d with in_port := some (match pyInt v with
        | some n => Sum.inl n
        | none => Sum.inr v) }
    else if kv.1 = "TAG" then
      if pyUpper ty = "MATCH" then
        Except.ok { d with vlan_id := some (lastLabel v) }
      else if pyUpper ty = "ACTION" then
        Except.ok { d with vlan_push := some (lastLabel v) }
      else Except.error ("Not supported field type: " ++ ty ++ "!")
    else if kv.1 = "output" then
      Except.ok { d with out := some v }
    else if kv.1 = "flowclass" ∧ pyUpper ty = "MATCH" then
      Except.ok { d with flowclass := some v }
    else Except.error ("Unrecognizable key: " ++ kv.1)

def field_splitter_go (ty : String) : FieldDict → List String →
    Except String FieldDict
  | d, [] => Except.ok d
  | d, part :: rest =>
    match field_splitter_step ty d part with
    | Except.error e => Except.error e
    | Except.ok d2 => field_splitter_go ty d2 rest

/-- `NFFGConverter.field_splitter(type, field)` (lines 94-141). -/
def field_splitter (ty field : String) : Except String FieldDict :=
  let parts := pySplit ';' field
  if parts.length < 1 then
    Except.error ("Wrong format: " ++ field ++ "! Separator (;) not found!")
  else field_splitter_go ty {} parts

/-- One iteration of the token loop of
`NFFGConverter._convert_flowrule_match` (lines 218-235): the optional
contribution to `ret` (`op = kv.split('=', 1)`; an unsupported key is
logged and skipped; `int()` failure on a TAG label is logged and
skipped; a missing `op[1]` raises `IndexError`). -/
def convert_flowrule_match_piece (kv : String) :
    Except String (Option String) :=
  let op := pySplitOnce '=' kv
  if op.1 ∉ GENERAL_OPERATIONS then Except.ok none
  else if op.1 = "TAG" then
    match op.2 with
    | none => Except.error "IndexError"
    | some v =>
      match pyInt (lastLabel v) with
      | some vlan_tag =>
        Except.ok (some ("dl_tag=" ++ pyFormatHash06x vlan_tag))
      | none => Except.ok none
  else if op.1 = "flowclass" then
    match op.2 with
    | none => Except.error "IndexError"
    | some v => Except.ok (some v)
  else Except.ok none

/-- One iteration of the token loop of
`NFFGConverter._convert_flowrule_action` (lines 258-277):
`op = kv.split('=')` (full split); an unsupported key is appended
verbatim; `UNTAG` emits `pop_tag`. -/
def convert_flowrule_action_piece (kv : String) :
    Except String (Option String) :=
  let op := pySplit '=' kv
  if op.headD kv ∉ GENERAL_OPERATIONS then Except.ok (some kv)
  else if op.headD kv = "TAG" then
    match op.get? 1 with
    | none => Except.error "IndexError"
    | some v =>
      match pyInt (lastLabel v) with
      | some vlan => Except.ok (some ("push_tag:" ++ pyFormatHash06x vlan))
      | none => Except.ok none
  else if op.headD kv = "UNTAG" then Except.ok (some "pop_tag")
  else Except.ok none

def collectMatchPieces : List String → Except String (List String)
  | [] => Except.ok []
  | kv :: rest =>
    match convert_flowrule_match_piece kv with
    | Except.error e => Except.error e
    | Except.ok r =>
      match collectMatchPieces rest with
      | Except.error e => Except.error e
      | Except.ok rs =>
        Except.ok (match r with
          | some s => s :: rs
          | none => rs)

def collectActionPieces : List String → Except String (List String)
  | [] => Except.ok []
  | kv :: rest =>
    match convert_flowrule_action_piece kv with
    | Except.error e => Except.error e
    | Except.ok r =>
      match collectActionPieces rest with
      | Except.error e => Except.error e
      | Except.ok rs =>
        Except.ok (match r with
          | some s => s :: rs
          | none => rs)

/-- `NFFGConverter._convert_flowrule_match(match)` (lines 196-236); the
early `return` for a field with fewer than two `;`-parts is `Except.ok
none` (Python `None`). -/
def convert_flowrule_match (m : String) : Except String (Option String) :=
  let match_part := pySplit ';' m
  if match_part.length < 2 then Except.ok none
  else
    (collectMatchPieces match_part).map
      (fun ps => some (String.intercalate ";" ps))

/-- `NFFGConverter._convert_flowrule_action(action)` (lines 238-278). -/
def convert_flowrule_action (a : String) : Except String (Option String) :=
  let action_part := pySplit ';' a
  if action_part.length < 2 then Except.ok none
  else
    (collectActionPieces action_part).map
      (fun ps => some (String.intercalate ";" ps))

/-! ### Claim C4 -/

/-- Claim C4 counterexample: the decode direction (`field_splitter`) does
raise on a token whose key is outside the supported vocabulary
(`raise RuntimeError("Unrecognizable key: %s" % kv[0])`). -/
theorem field_splitter_raises_C4 :
    field_splitter "MATCH" "foo=1" =
      Except.error "Unrecognizable key: foo" := by
  rfl

theorem pySplitOnce_fst (c : Char) (s : String) :
    (pySplitOnce c s).1 = (pySplit c s).headD s := by
  unfold pySplitOnce
  rcases h : pySplit c s with _ | ⟨x, _ | ⟨y, rest⟩⟩ <;> simp [h]

theorem collectMatchPieces_cons (p : String) (rest : List String) :
    collectMatchPieces (p :: rest) =
      match convert_flowrule_match_piece p with
      | Except.error e => Except.error e
      | Except.ok r =>
        match collectMatchPieces rest with
        | Except.error e => Except.error e
        | Except.ok rs =>
          Except.ok (match r with
            | some s => s :: rs
            | none => rs) := rfl

theorem collectActionPieces_cons (p : String) (rest : List String) :
    collectActionPieces (p :: rest) =
      match convert_flowrule_action_piece p with
      | Except.error e => Except.error e
      | Except.ok r =>
        match collectActionPieces rest with
        | Except.error e => Except.error e
        | Except.ok rs =>
          Except.ok (match r with
            | some s => s :: rs
            | none => rs) := rfl

/-- Claim C4 (amended): in the encode direction an unknown key never
raises — `_convert_flowrule_match` logs and skips the token, and
`_convert_flowrule_action` passes it through verbatim in place — but the
decoder `field_splitter` raises `RuntimeError` on an unknown key. -/
theorem flow_codec_unknown_key_C4 (kv : String) (pre suf ps ss : List String)
    (h : (pySplit '=' kv).headD kv ∉ GENERAL_OPERATIONS)
    (hpre : collectActionPieces pre = Except.ok ps)
    (hsuf : collectActionPieces suf = Except.ok ss) :
    convert_flowrule_match_piece kv = Except.ok none ∧
    convert_flowrule_action_piece kv = Except.ok (some kv) ∧
    collectMatchPieces (pre ++ kv :: suf) = collectMatchPieces (pre ++ suf) ∧
    collectActionPieces (pre ++ kv :: suf) = Except.ok (ps ++ kv :: ss) := by
  have hkey : (pySplitOnce '=' kv).1 ∉ GENERAL_OPERATIONS := by
    rw [pySplitOnce_fst]
    exact h
  have hm : convert_flowrule_match_piece kv = Except.ok none := by
    unfold convert_flowrule_match_piece
    rw [if_pos hkey]
  have ha : convert_flowrule_action_piece kv = Except.ok (some kv) := by
    unfold convert_flowrule_action_piece
    rw [if_pos h]
  refine ⟨hm, ha, ?_, ?_⟩
  · clear hpre
    induction pre with
    | nil =>
      show collectMatchPieces (kv :: suf) = collectMatchPieces suf
      rw [collectMatchPieces_cons, hm]
      rcases hs : collectMatchPieces suf with e | rs <;> rfl
    | cons p pre ih =>
      show collectMatchPieces (p :: (pre ++ kv :: suf)) =
        collectMatchPieces (p :: (pre ++ suf))
      rw [collectMatchPieces_cons, collectMatchPieces_cons, ih]
  · revert hpre
    induction pre generalizing ps with
    | nil =>
      intro hpre
      cases hpre
      show collectActionPieces (kv :: suf) = Except.ok (kv :: ss)
      rw [collectActionPieces_cons, ha, hsuf]
    | cons p pre ih =>
      intro hpre
      rw [collectActionPieces_cons] at hpre
      rcases hp : convert_flowrule_action_piece p with e | r
      · rw [hp] at hpre
        cases hpre
      · rw [hp] at hpre
        rcases hps : collectActionPieces pre with e | qs
        · rw [hps] at hpre
          cases hpre
        · rw [hps] at hpre
          show collectActionPieces (p :: (pre ++ kv :: suf)) = _
          rw [collectActionPieces_cons, hp, ih qs hps]
          rcases r with _ | s
          · cases hpre
            rfl
          · cases hpre
            rfl

/-- Witness for C4: the unknown key `"foo=1"` between an `in_port` token
and an `output` token. -/
theorem flow_codec_unknown_key_C4_witness :
    convert_flowrule_match_piece "foo=1" = Except.ok none ∧
    convert_flowrule_action_piece "foo=1" = Except.ok (some "foo=1") ∧
    collectMatchPieces ["UNTAG", "foo=1", "TAG=a|b|7"] =
      collectMatchPieces ["UNTAG", "TAG=a|b|7"] ∧
    collectActionPieces ["UNTAG", "foo=1", "TAG=a|b|7"] =
      Except.ok (["pop_tag"] ++ "foo=1" :: ["push_tag:0x0007"]) :=
  flow_codec_unknown_key_C4 "foo=1" ["UNTAG"] ["TAG=a|b|7"]
    ["pop_tag"] ["push_tag:0x0007"] (by decide) (by rfl) (by rfl)

/-! ## Flow-entry parsing (`NFFGConverter._parse_virtualizer_node_flowentries`,
lines 740-1117)

One loop iteration either creates exactly one `FlowRule` (with id
`fr_id = int(flowentry.id)`) on some port, or skips the flow entry via
`continue`.  The virtualizer-library details are modelled as resolved
data on the flow entry: `portTargetOk`/`outTargetOk` stand for
`flowentry.port.get_target()` / `flowentry.out.get_target()` succeeding
(leafref resolution is performed by the external virtualizer library) and
`storePortOk` for the port lookup of lines 1008-1040 succeeding. -/

structure VFlowentry where
  id : String
  portInit : Bool
  portText : String
  portTargetOk : Bool
  outInit : Bool
  outText : String
  outTargetOk : Bool
  storePortOk : Bool
deriving DecidableEq

/-- One iteration of the `for flowentry in vnode.flowtable` loop:
`some fr_id` when a `FlowRule` with that id is added, `none` when the
entry is skipped by one of the `continue` statements. -/
def parse_one_flowentry (fe : VFlowentry) : Option Int :=
  match pyInt fe.id with
  | none => none
  | some fr_id =>
    if ¬ fe.portInit then none
    else if ¬ containsSub "://" fe.portText ∧ ¬ fe.portTargetOk then none
    else if ¬ fe.outInit then none
    else if ¬ containsSub "://" fe.outText ∧ ¬ fe.outTargetOk then none
    else if ¬ containsSub "://" fe.portText ∧ ¬ fe.storePortOk then none
    else some fr_id

/-- Ids of the flow rules created for a node's flowtable. -/
def parse_node_flowentries (fes : List VFlowentry) : List Int :=
  fes.filterMap parse_one_flowentry

theorem parse_one_flowentry_id {fe : VFlowentry} {g : Int}
    (h : parse_one_flowentry fe = some g) : pyInt fe.id = some g := by
  unfold parse_one_flowentry at h
  split at h
  · cases h
  · rename_i fr_id heq
    split at h
    · cases h
    · split at h
      · cases h
      · split at h
        · cases h
        · split at h
          · cases h
          · split at h
            · cases h
            · cases h
              exact heq

/-- Claim C9: a flow entry whose id does not parse as an integer is
skipped entirely (no `FlowRule` is created for it) while the remaining
flow entries are still parsed, and every created `FlowRule` id is the
integer value of some flow entry's id. -/
theorem flowentry_id_guard_C9 (fes pre suf : List VFlowentry)
    (fe : VFlowentry) (g : Int) (h : pyInt fe.id = none) :
    parse_one_flowentry fe = none ∧
    parse_node_flowentries (pre ++ fe :: suf) =
      parse_node_flowentries (pre ++ suf) ∧
    (g ∈ parse_node_flowentries fes →
      ∃ fe' ∈ fes, pyInt fe'.id = some g) := by
  have hskip : parse_one_flowentry fe = none := by
    unfold parse_one_flowentry
    rw [h]
  refine ⟨hskip, ?_, ?_⟩
  · unfold parse_node_flowentries
    rw [List.filterMap_append, List.filterMap_append]
    rw [List.filterMap_cons_none hskip]
  · intro hg
    rcases List.mem_filterMap.mp hg with ⟨fe', hmem, heq⟩
    exact ⟨fe', hmem, parse_one_flowentry_id heq⟩

/-- Witness for C9: the entry with id `"abc"` between two well-formed
entries with ids `"1"` and `"2"`. -/
theorem flowentry_id_guard_C9_witness :
    parse_one_flowentry ⟨"abc", true, "p1", true, true, "p2", true, true⟩
      = none ∧
    parse_node_flowentries
        [⟨"1", true, "p1", true, true, "p2", true, true⟩,
         ⟨"abc", true, "p1", true, true, "p2", true, true⟩,
         ⟨"2", true, "p2", true, true, "p1", true, true⟩] =
      parse_node_flowentries
        [⟨"1", true, "p1", true, true, "p2", true, true⟩,
         ⟨"2", true, "p2", true, true, "p1", true, true⟩] ∧
    ((1 : Int) ∈ parse_node_flowentries
        [⟨"1", true, "p1", true, true, "p2", true, true⟩,
         ⟨"abc", true, "p1", true, true, "p2", true, true⟩,
         ⟨"2", true, "p2", true, true, "p1", true, true⟩] →
      ∃ fe' ∈ [⟨"1", true, "p1", true, true, "p2", true, true⟩,
               ⟨"abc", true, "p1", true, true, "p2", true, true⟩,
               (⟨"2", true, "p2", true, true, "p1", true, true⟩ :
                 VFlowentry)], pyInt fe'.id = some 1) :=
  flowentry_id_guard_C9
    [⟨"1", true, "p1", true, true, "p2", true, true⟩,
     ⟨"abc", true, "p1", true, true, "p2", true, true⟩,
     ⟨"2", true, "p2", true, true, "p1", true, true⟩]
    [⟨"1", true, "p1", true, true, "p2", true, true⟩]
    [⟨"2", true, "p2", true, true, "p1", true, true⟩]
    ⟨"abc", true, "p1", true, true, "p2", true, true⟩ 1 (by decide)

/-! ## SG-hop reconstruction
(`NFFGConverter._parse_sghops_from_flowrules`, lines 1491-1565) -/

/-- A Python value held in a resource field (`delay`/`bandwidth`): a
number or a raw string. -/
inductive PyVal
  | num (q : ℚ)
  | str (s : String)
deriving DecidableEq

/-- A flow rule of the single (SBB) infra node: id, `match`/`action`
strings and the resources copied into the SG hop. -/
structure SbbFlowrule where
  id : Int
  fr_match : String
  fr_action : String
  delay : Option PyVal
  bandwidth : Option PyVal
deriving DecidableEq

/-- Modelled from the spec: one element of
`nffg.real_out_edges_iter(sbb.id)` (`nffg_lib` is not under src/) — a real
(non-loopback) edge leaving the SBB node, recorded as the SBB-side source
port id and the opposite NF/SAP destination port `(node id, port id)`. -/
structure SbbEdge where
  srcPortId : String
  dstNode : String
  dstPort : String
deriving DecidableEq

structure SGHop where
  id : Int
  src : String × String
  dst : String × String
  flowclass : Option String
  delay : Option PyVal
  bandwidth : Option PyVal
deriving DecidableEq

/-- `[l.dst for u, v, l in nffg.real_out_edges_iter(sbb.id)
if l.src.id == port_id]`. -/
def sghop_resolve (edges : List SbbEdge) (port_id : String) :
    List (String × String) :=
  (edges.filter (fun l => l.srcPortId == port_id)).map
    (fun l => (l.dstNode, l.dstPort))

/-- The `for item in flowrule.match.split(';')` loop (lines 1510-1518):
computes `(in_port, flowclass)`; `item.split('=')[1]` /
`item.split('=', 1)[1]` raise `IndexError` when no `'='` is present. -/
def sghop_scan_match (m : String) :
    Except String (Option String × Option String) :=
  (pySplit ';' m).foldlM
    (fun (acc : Option String × Option String) item =>
      if pyStartsWith "in_port" item then
        match (pySplit '=' item).get? 1 with
        | none => Except.error "IndexError"
        | some v => Except.ok (some v, acc.2)
      else if pyStartsWith "TAG" item then Except.ok acc
      else if pyStartsWith "UNTAG" item then Except.ok acc
      else if pyStartsWith "flowclass" item then
        match (pySplitOnce '=' item).2 with
        | none => Except.error "IndexError"
        | some v => Except.ok (acc.1, some v)
      else Except.ok (acc.1, some item))
    (none, none)

/-- The `for item in flowrule.action.split(';')` loop (lines 1538-1540):
computes `output`. -/
def sghop_scan_action (a : String) : Except String (Option String) :=
  (pySplit ';' a).foldlM
    (fun (acc : Option String) item =>
      if pyStartsWith "output" item then
        match (pySplit '=' item).get? 1 with
        | none => Except.error "IndexError"
        | some v => Except.ok (some v)
      else Except.ok acc)
    none

/-- Outcome of one flow rule: create an SG hop, `continue` (ambiguous or
missing opposite port), or the bare `return` that abandons the whole
reconstruction (undetermined `in_port`/`output`). -/
inductive FrStep
  | hop (h : SGHop)
  | skip
  | halt
deriving DecidableEq

/-- The body of the `for flowrule in sbb.flowrules()` loop. -/
def sghop_step (edges : List SbbEdge) (fr : SbbFlowrule) :
    Except String FrStep :=
  match sghop_scan_match fr.fr_match with
  | Except.error e => Except.error e
  | Except.ok (none, _) => Except.ok FrStep.halt
  | Except.ok (some ip, fc) =>
    match sghop_resolve edges ip with
    | [srcp] =>
      match sghop_scan_action fr.fr_action with
      | Except.error e => Except.error e
      | Except.ok none => Except.ok FrStep.halt
      | Except.ok (some op) =>
        match sghop_resolve edges op with
        | [dstp] =>
          Except.ok (FrStep.hop
            ⟨fr.id, srcp, dstp, fc, fr.delay, fr.bandwidth⟩)
        | _ => Except.ok FrStep.skip
    | _ => Except.ok FrStep.skip

def parse_sghops_go (edges : List SbbEdge) :
    List SbbFlowrule → Except String (List SGHop)
  | [] => Except.ok []
  | fr :: rest =>
    match sghop_step edges fr with
    | Except.error e => Except.error e
    | Except.ok (FrStep.hop h) =>
      match parse_sghops_go edges rest with
      | Except.error e => Except.error e
      | Except.ok hs => Except.ok (h :: hs)
    | Except.ok FrStep.skip => parse_sghops_go edges rest
    | Except.ok FrStep.halt => Except.ok []

/-- `NFFGConverter._parse_sghops_from_flowrules(nffg)`; whether the graph
is a SingleBiSBiS view (`nffg.is_SBB()`, nffg_lib) is passed as a flag. -/
def parse_sghops_from_flowrules (isSBB : Bool) (edges : List SbbEdge)
    (frs : List SbbFlowrule) : Except String (List SGHop) :=
  if ¬ isSBB then Except.ok [] else parse_sghops_go edges frs

theorem sghop_step_spec (edges : List SbbEdge) (fr : SbbFlowrule)
    (ip op : String) (fc : Option String) (pA pB : String × String)
    (hm : sghop_scan_match fr.fr_match = Except.ok (some ip, fc))
    (ha : sghop_scan_action fr.fr_action = Except.ok (some op))
    (hA : sghop_resolve edges ip = [pA])
    (hB : sghop_resolve edges op = [pB]) :
    sghop_step edges fr =
      Except.ok (FrStep.hop ⟨fr.id, pA, pB, fc, fr.delay, fr.bandwidth⟩) := by
  unfold sghop_step
  simp only [hm, hA, ha, hB]

/-- Claim C8: on a SingleBiSBiS topology with exactly one flow rule
`{id = 10, match = "in_port=A", action = "output=B"}`, where port `A` and
port `B` each reach exactly one NF/SAP port over the real out-edges,
reconstruction yields exactly one SG hop with id 10 from the port reached
from `A` to the port reached from `B`. -/
theorem sghop_reconstruction_C8 (edges : List SbbEdge)
    (pA pB : String × String) (d bw : Option PyVal)
    (hA : sghop_resolve edges "A" = [pA])
    (hB : sghop_resolve edges "B" = [pB]) :
    parse_sghops_from_flowrules true edges
        [⟨10, "in_port=A", "output=B", d, bw⟩] =
      Except.ok [⟨10, pA, pB, none, d, bw⟩] := by
  have hm : sghop_scan_match
      (SbbFlowrule.mk 10 "in_port=A" "output=B" d bw).fr_match
      = Except.ok (some "A", none) := rfl
  have ha : sghop_scan_action
      (SbbFlowrule.mk 10 "in_port=A" "output=B" d bw).fr_action
      = Except.ok (some "B") := rfl
  have hstep := sghop_step_spec edges _ "A" "B" none pA pB hm ha hA hB
  unfold parse_sghops_from_flowrules
  rw [if_neg (by simp)]
  unfold parse_sghops_go
  rw [hstep]
  rfl

/-- Witness for C8: port `A` reaches NF port `("nf1", "1")`, port `B`
reaches SAP port `("sap2", "p2")`. -/
theorem sghop_reconstruction_C8_witness :
    parse_sghops_from_flowrules true
        [⟨"A", "nf1", "1"⟩, ⟨"B", "sap2", "p2"⟩]
        [⟨10, "in_port=A", "output=B", none, none⟩] =
      Except.ok [⟨10, ("nf1", "1"), ("sap2", "p2"), none, none, none⟩] :=
  sghop_reconstruction_C8 [⟨"A", "nf1", "1"⟩, ⟨"B", "sap2", "p2"⟩]
    ("nf1", "1") ("sap2", "p2") none none (by rfl) (by rfl)

/-! ## Requirement/Constraint Translator
(`NFFGConverter._convert_nffg_reqs`, lines 1936-2013, and
`NFFGConverter._parse_virtualizer_requirement` /
`NFFGConverter.__process_variables`, lines 1426-1489)

A Virtualizer flow entry is reduced to the fields the translator touches:
its id and its `resources.delay` / `resources.bandwidth` values. -/

structure VFlowEntryRes where
  id : Int
  delay : Option PyVal
  bandwidth : Option PyVal
deriving DecidableEq

/-- `var_delay and str(var_delay).startswith('$')`: the stored delay is a
truthy string beginning with `'$'` (the rendering `str()` of a number
never begins with `'$'`). -/
def req_delay_var (fe : VFlowEntryRes) : Option String :=
  match fe.delay with
  | some (PyVal.str s) =>
    if s ≠ "" ∧ pyStartsWith "$" s then some s else none
  | _ => none

/-- One `for hop in req.sg_path` iteration of the delay branch of
`_convert_nffg_reqs` (lines 1962-1980): looks the hop up in the flowtable
(`KeyError` → warn and continue), keeps an existing `$`-variable, and
otherwise replaces the entry's delay by the fresh variable `"$d<id>"`,
appending the variable to the formula. -/
def convert_req_delay_hop (acc : List VFlowEntryRes × List String)
    (hop : Int) : List VFlowEntryRes × List String :=
  match acc.1.find? (fun fe => fe.id == hop) with
  | none => acc
  | some fe =>
    match req_delay_var fe with
    | some v => (acc.1, acc.2 ++ [v])
    | none =>
      ((acc.1.map (fun g =>
          if g.id == fe.id then { g with delay := some (PyVal.str
            ("$d" ++ toString fe.id)) }
          else g)),
       acc.2 ++ ["$d" ++ toString fe.id])

/-- The delay branch of `_convert_nffg_reqs` for one requirement on its
single infra node: the updated flowtable and the emitted constraint
`(id = "delay-<req id>", formula = "<$d..+$d..>|max|<delay>")`. -/
def convert_req_delay (delay : Int) (req_id : String) (sg_path : List Int)
    (ft : List VFlowEntryRes) :
    List VFlowEntryRes × (String × String) :=
  let res := sg_path.foldl convert_req_delay_hop (ft, [])
  (res.1,
   ("delay-" ++ req_id,
    String.intercalate "+" res.2 ++ "|max|" ++ toString delay))

/-- Resource parsing of `_parse_virtualizer_node_flowentries`
(lines 1052-1056): `float(value)`, degrading to the raw string on
`ValueError`. -/
def parse_fe_resource : Option PyVal → Option PyVal
  | none => none
  | some (PyVal.num q) => some (PyVal.num q)
  | some (PyVal.str s) =>
    match pyFloat s with
    | some q => some (PyVal.num q)
    | none => some (PyVal.str s)

/-- `NFFGConverter.__process_variables(infra, variables)`
(lines 1426-1443): flow rules whose `delay`/`bandwidth` field equals one
of the variable names, in variable order, together with the matched field
kind; `None, None` (modelled `none`) when the variables match zero fields
or both kinds. -/
def process_variables (frs_all : List SbbFlowrule)
    (varNames : List String) : Option (List SbbFlowrule × String) :=
  let step := varNames.foldl
    (fun (acc : List SbbFlowrule × Bool × Bool) var =>
      let var := String.mk (stripWS var.data)
      frs_all.foldl (fun acc2 fr =>
        let acc3 :=
          if fr.delay = some (PyVal.str var) then
            (acc2.1 ++ [fr], true, acc2.2.2)
          else acc2
        if fr.bandwidth = some (PyVal.str var) then
          (acc3.1 ++ [fr], acc3.2.1, true)
        else acc3) acc)
    ([], false, false)
  match step with
  | (frs, true, false) => some (frs, "delay")
  | (frs, false, true) => some (frs, "bandwidth")
  | _ => none

/-- The `in_port` operand of a match string (last `in_port=` token). -/
def match_in_port (m : String) : Option String :=
  (pySplit ';' m).foldl
    (fun acc item =>
      if pyStartsWith "in_port" item then (pySplit '=' item).get? 1
      else acc)
    none

/-- The `output` operand of an action string (last `output=` token). -/
def action_output (a : String) : Option String :=
  (pySplit ';' a).foldl
    (fun acc item =>
      if pyStartsWith "output" item then (pySplit '=' item).get? 1
      else acc)
    none

/-- Modelled from the spec: `NFFGToolBox.get_inport_of_flowrule(infra,
id)` (nffg_lib is not under src/) — the port referenced by the rule's
`in_port` operand among the infra node's ports; `RuntimeError` (missing
rule or port) is `none`. -/
def get_inport_of_flowrule (ports : List String) (frs : List SbbFlowrule)
    (fr_id : Int) : Option String :=
  (frs.find? (fun fr => fr.id == fr_id)).bind (fun fr =>
    (match_in_port fr.fr_match).bind (fun p =>
      if p ∈ ports then some p else none))

/-- Modelled from the spec: `NFFGToolBox.get_output_port_of_flowrule`
(nffg_lib is not under src/) — the port referenced by the rule's `output`
operand among the infra node's ports. -/
def get_output_port_of_flowrule (ports : List String) (fr : SbbFlowrule) :
    Option String :=
  (action_output fr.fr_action).bind (fun p =>
    if p ∈ ports then some p else none)

structure Requirement where
  id : String
  src : String
  dst : String
  delay : Option ℚ
  bandwidth : Option ℚ
  sg_path : List Int
deriving DecidableEq

/-- State threaded through `_parse_virtualizer_requirement` for one infra
node: the created requirement links (the `reqs` dict in insertion order),
the infra's flow rules (variables are cleared on success) and the
constraint formulas not deleted. -/
structure ReqParseState where
  reqs : List Requirement
  frs : List SbbFlowrule
  kept : List (String × String)
deriving DecidableEq

/-- One constraint formula of `_parse_virtualizer_requirement`
(lines 1450-1487), at enumeration index `i`. -/
def parse_requirement_step (ports : List String) (st : ReqParseState)
    (i : Nat) (cid formula : String) : ReqParseState :=
  let splitted := pySplit '|' formula
  let varNames := pySplit '+' (String.mk (stripWS (splitted.headD "").data))
  match pyFloat (splitted.getLastD "") with
  | none => { st with kept := st.kept ++ [(cid, formula)] }
  | some value =>
    match process_variables st.frs varNames with
    | none => { st with kept := st.kept ++ [(cid, formula)] }
    | some (frs, ty) =>
      match frs.head?, frs.getLast? with
      | some fr0, some frn =>
        match get_inport_of_flowrule ports st.frs fr0.id,
              get_output_port_of_flowrule ports frn with
        | some sport, some dport =>
          let sg_path : List Int := frs.map (fun fr => fr.id)
          let st1 : ReqParseState :=
            match st.reqs.find?
                (fun r : Requirement => r.src == sport && r.dst == dport)
            with
            | some _ => st
            | none => { st with reqs := st.reqs ++
                [(⟨"req" ++ toString i, sport, dport, none, none, sg_path⟩ :
                  Requirement)] }
          { reqs := st1.reqs.map (fun r : Requirement =>
              if r.src == sport && r.dst == dport then
                (if ty = "delay" then { r with delay := some value }
                 else { r with bandwidth := some value })
              else r),
            frs := st1.frs.map (fun g : SbbFlowrule =>
              if (frs.map (fun fr => fr.id)).contains g.id then
                (if ty = "delay" then { g with delay := none }
                 else { g with bandwidth := none })
              else g),
            kept := st1.kept }
        | _, _ => { st with kept := st.kept ++ [(cid, formula)] }
      | _, _ => { st with kept := st.kept ++ [(cid, formula)] }

def parse_requirement_go (ports : List String) :
    Nat → ReqParseState → List (String × String) → ReqParseState
  | _, st, [] => st
  | i, st, c :: rest =>
    parse_requirement_go ports (i + 1)
      (parse_requirement_step ports st i c.1 c.2) rest

/-- `NFFGConverter._parse_virtualizer_requirement` restricted to a single
infra node with port ids `ports`, flow rules `frs` and constraint list
`constraints`. -/
def parse_virtualizer_requirement (ports : List String)
    (frs : List SbbFlowrule) (constraints : List (String × String)) :
    ReqParseState :=
  parse_requirement_go ports 0 ⟨[], frs, []⟩ constraints

/-- The Graph→Tree→Graph composition for one delay requirement on a
single infra node: dump the flow rules' resources into the Virtualizer
flowtable, emit the constraint formula (replacing delays by `$d`
variables), re-parse the flow entries' resources (`float()` fails on a
`$`-variable, so the string is kept) and re-parse the requirement from
the emitted formula. -/
def req_round_trip (delay : Int) (req_id : String) (sg_path : List Int)
    (ports : List String) (frs : List SbbFlowrule) : ReqParseState :=
  let ft := frs.map (fun fr => VFlowEntryRes.mk fr.id fr.delay fr.bandwidth)
  let conv := convert_req_delay delay req_id sg_path ft
  let frs2 := frs.map (fun fr =>
    match conv.1.find? (fun fe => fe.id == fr.id) with
    | some fe => { fr with delay := parse_fe_resource fe.delay,
                           bandwidth := parse_fe_resource fe.bandwidth }
    | none => fr)
  parse_virtualizer_requirement ports frs2 [conv.2]

/-- Claim C7: a `Requirement(delay=50, sg_path=[1,2])` on a single infra
node survives the round trip: the emitted formula is
`"$d1+$d2|max|50"`, and parsing it back yields one requirement with the
same delay value 50 and the same ordered `sg_path = [1, 2]`, spanning the
in-port of the first rule and the output of the last. -/
theorem requirement_round_trip_C7 :
    (convert_req_delay 50 "r1" [1, 2]
        [⟨1, none, none⟩, ⟨2, none, none⟩]).2
      = ("delay-r1", "$d1+$d2|max|50") ∧
    (req_round_trip 50 "r1" [1, 2] ["1", "2", "3"]
        [⟨1, "in_port=1", "output=2", none, none⟩,
         ⟨2, "in_port=2", "output=3", none, none⟩]).reqs =
      [⟨"req0", "1", "3", some 50, none, [1, 2]⟩] := by
  refine ⟨by decide, by decide⟩

end Tnova
